import Mathlib

/-!
Verification of the policy-wrapped step supervisor (step runner) of the
packer build pipeline.  The definitions below are a shallow embedding of
the Go source: the action enumeration, the shared run-context bag, the
three policy decorators (basic, abort, ask) with their shared retry loop,
the interactive prompt parser, and the cleanup coordinator
`handleAbortsAndInterupts` (the Go source spells it that way).

User-visible output (ui.Say / ui.Error / log.Printf lines) is modelled as
a list of tagged notices; the interactive transport is modelled by
supplying the lines the operator would type (for the prompt parser) or
the responses the prompt arbiter would deliver (for the ask decorator).
-/

namespace Packer

/-- multistep.StepAction: the verdict of one step invocation. -/
inductive StepAction where
  | actionContinue
  | actionRetry
  | actionHalt
deriving DecidableEq

/-- The three answers the failure prompt can produce (askResponse in the source). -/
inductive AskResponse where
  | askCleanup
  | askAbort
  | askRetry
deriving DecidableEq

/-- One tagged user-visible output line.  Each constructor corresponds to one
distinct format string of the source. -/
inductive Notice where
  | retrying (name : String)
  | errorNotice (msg : String)
  | interrupted
  | stepFailed (name : String)
  | skipCleanup (name : String)
  | stepFailedPrompt (name : String)
  | askInputError (msg : String)
  | incorrectInput (line : List Char)
deriving DecidableEq

/-- The multistep.StateBag restricted to the well-known keys the supervisor
reads and writes.  A `Bool` field models presence of the corresponding key
(the Go code only ever checks presence with GetOk). -/
structure StateBag where
  steps_max_retry : Option Int
  cancelled : Bool
  halted : Bool
  aborted : Bool
  abort_step_logged : Bool
  error : Option String
deriving DecidableEq

/-- The read of "steps_max_retry" performed by every decorator:
absent means 0. -/
def getMaxRetries (s : StateBag) : Int :=
  s.steps_max_retry.getD 0

/-- A wrapped step: its display name (typeName in the source), its Run
behaviour — indexed by how many times it has been invoked so far, since a
Go step may behave differently on each call and may mutate the bag — and
its Cleanup behaviour. -/
structure Step where
  name : String
  run : Nat → StateBag → StepAction × StateBag
  cleanup : StateBag → StateBag

/-- The retry loop shared verbatim by basicStep.Run, abortStep.Run and
askStep.Run: while the action is Retry and the retry counter is below the
budget, say a retrying notice and re-invoke the wrapped Run.  The budget
is materialised as `fuel` because the Go loop reads maxRetries into a
local variable once, before the loop, and never re-reads it.  Returns the
action the loop exits with, the final bag, the number of re-invocations
performed, and the notices emitted. -/
def retryLoop (step : Step) : Nat → Nat → StepAction → StateBag →
    StepAction × StateBag × Nat × List Notice
  | 0, _, action, s => (action, s, 0, [])
  | fuel + 1, callIdx, action, s =>
    if action = StepAction.actionRetry then
      let r := step.run callIdx s
      if r.1 = StepAction.actionContinue then
        (StepAction.actionContinue, r.2, 1, [Notice.retrying step.name])
      else
        let t := retryLoop step fuel (callIdx + 1) r.1 r.2
        (t.1, t.2.1, t.2.2.1 + 1, Notice.retrying step.name :: t.2.2.2)
    else (action, s, 0, [])

/-- basicStep.Run: run the wrapped step once; Continue is passed through;
otherwise read the budget (once, from the bag the first invocation left),
run the retry loop, and collapse every non-Continue exit to Halt.
Returns (action, bag, number of underlying invocations, notices). -/
def basicStepRun (step : Step) (s0 : StateBag) :
    StepAction × StateBag × Nat × List Notice :=
  let r := step.run 0 s0
  if r.1 = StepAction.actionContinue then (StepAction.actionContinue, r.2, 1, [])
  else
    let l := retryLoop step (getMaxRetries r.2).toNat 1 r.1 r.2
    if l.1 = StepAction.actionContinue then
      (StepAction.actionContinue, l.2.1, l.2.2.1 + 1, l.2.2.2)
    else (StepAction.actionHalt, l.2.1, l.2.2.1 + 1, l.2.2.2)

/-- abortStep.Run: the Go body is a verbatim duplicate of basicStep.Run
(the two decorators differ only in Cleanup), so it is embedded as the same
function. -/
def abortStepRun (step : Step) (s0 : StateBag) :
    StepAction × StateBag × Nat × List Notice :=
  basicStepRun step s0

/-- The error display performed by askStep.Run before prompting:
ui.Error of the "error" value when present. -/
def errNotices (s : StateBag) : List Notice :=
  match s.error with
  | some e => [Notice.errorNotice e]
  | none => []

/-- One iteration of askStep.Run's outer loop up to (but not including)
the prompt: run the step, run the retry loop, and on failure set the
action to Halt and emit the error notice (if any) and the
"Step failed" line that `ask` prints before prompting. -/
def askRound (step : Step) (callIdx : Nat) (s : StateBag) :
    StepAction × StateBag × Nat × List Notice :=
  let r := step.run callIdx s
  if r.1 = StepAction.actionContinue then (StepAction.actionContinue, r.2, 1, [])
  else
    let l := retryLoop step (getMaxRetries r.2).toNat (callIdx + 1) r.1 r.2
    if l.1 = StepAction.actionContinue then
      (StepAction.actionContinue, l.2.1, l.2.2.1 + 1, l.2.2.2)
    else
      (StepAction.actionHalt, l.2.1, l.2.2.1 + 1,
        l.2.2.2 ++ errNotices l.2.1 ++ [Notice.stepFailedPrompt step.name])

/-- askStep.Run: loop rounds; on a failing round consult the prompt
arbiter's answer (supplied as the next element of `answers`).  Cleanup
returns the Halt; Abort puts "aborted" into the bag and returns the Halt;
Retry starts a new round.  `none` models the blocking prompt when no
answer is available. -/
def askStepRun (step : Step) : List AskResponse → Nat → StateBag →
    Option (StepAction × StateBag × Nat × List Notice)
  | answers, callIdx, s =>
    let q := askRound step callIdx s
    if q.1 = StepAction.actionContinue then some q
    else
      match answers with
      | [] => none
      | AskResponse.askCleanup :: _ => some q
      | AskResponse.askAbort :: _ =>
        some (q.1, { q.2.1 with aborted := true }, q.2.2.1, q.2.2.2)
      | AskResponse.askRetry :: rest =>
        match askStepRun step rest (callIdx + q.2.2.1) q.2.1 with
        | none => none
        | some (a, s2, m, ns2) => some (a, s2, q.2.2.1 + m, q.2.2.2 ++ ns2)

/-- handleAbortsAndInterupts: decide whether cleanup should run, logging
the recorded error once, the "aborting" line once, and a terse per-step
skip notice afterwards; "abort_step_logged" dedups across calls.
Returns (shouldCleanup, bag, notices). -/
def handleAbortsAndInterupts (s : StateBag) (stepName : String) :
    Bool × StateBag × List Notice :=
  let alreadyLogged := s.abort_step_logged
  let p1 : StateBag × List Notice :=
    match s.error with
    | some err =>
      if alreadyLogged then (s, [])
      else ({ s with abort_step_logged := true }, [Notice.errorNotice err])
    | none => (s, [])
  if p1.1.cancelled then
    if alreadyLogged then (false, p1.1, p1.2 ++ [Notice.skipCleanup stepName])
    else (false, { p1.1 with abort_step_logged := true }, p1.2 ++ [Notice.interrupted])
  else if p1.1.halted then
    if alreadyLogged then (false, p1.1, p1.2 ++ [Notice.skipCleanup stepName])
    else (false, { p1.1 with abort_step_logged := true }, p1.2 ++ [Notice.stepFailed stepName])
  else (true, p1.1, p1.2)

/-- basicStep.Cleanup: unconditional delegation.  The Bool reports whether
the wrapped Cleanup ran. -/
def basicStepCleanup (step : Step) (s : StateBag) : Bool × StateBag × List Notice :=
  (true, step.cleanup s, [])

/-- abortStep.Cleanup: consult the coordinator; delegate only when it says so. -/
def abortStepCleanup (step : Step) (s : StateBag) : Bool × StateBag × List Notice :=
  let h := handleAbortsAndInterupts s step.name
  if h.1 then (true, step.cleanup h.2.1, h.2.2) else (false, h.2.1, h.2.2)

/-- askStep.Cleanup: consult the coordinator only when "aborted" is in the
bag; otherwise delegate unconditionally. -/
def askStepCleanup (step : Step) (s : StateBag) : Bool × StateBag × List Notice :=
  if s.aborted then
    let h := handleAbortsAndInterupts s step.name
    if h.1 then (true, step.cleanup h.2.1, h.2.2) else (false, h.2.1, h.2.2)
  else (true, step.cleanup s, [])

/-- One line of operator input to the failure prompt, together with the
error (if any) that ui.Ask returned alongside it. -/
structure AskLine where
  line : List Char
  err : Option String
deriving DecidableEq

/-- The log.Printf line askPrompt emits when ui.Ask returned an error. -/
def askErrNotices (e : Option String) : List Notice :=
  match e with
  | some msg => [Notice.askInputError msg]
  | none => []

/-- askPrompt: lower-case the line, append "c", and decide by the first
character; anything other than c/a/r prints an incorrect-input notice and
re-prompts.  `none` models blocking forever when the operator supplies no
further line. -/
def askPrompt : List AskLine → Option (AskResponse × List Notice)
  | [] => none
  | l :: rest =>
    let ens := askErrNotices l.err
    let input := l.line.map Char.toLower ++ ['c']
    let c := input.headD 'c'
    if c = 'c' then some (AskResponse.askCleanup, ens)
    else if c = 'a' then some (AskResponse.askAbort, ens)
    else if c = 'r' then some (AskResponse.askRetry, ens)
    else
      match askPrompt rest with
      | none => none
      | some (r, ns) => some (r, ens ++ (Notice.incorrectInput l.line :: ns))

/-- A step as it appears in the runner's step list after newRunner's
switch: wrapped by one of the three decorators, or left as supplied
(the switch has no default case). -/
inductive WrappedStep where
  | basic (s : Step)
  | abort (s : Step)
  | ask (s : Step)
  | raw (s : Step)

/-- The decoration performed by newRunner's switch on PackerOnError. -/
def wrapSteps (policy : String) (steps : List Step) : List WrappedStep :=
  if policy = "" ∨ policy = "cleanup" then steps.map WrappedStep.basic
  else if policy = "abort" then steps.map WrappedStep.abort
  else if policy = "ask" then steps.map WrappedStep.ask
  else steps.map WrappedStep.raw

/-- What newRunner returns: the decorated step list, whether a
DebugRunner (rather than a BasicRunner) was built, and whether a
debug-pause function was produced. -/
structure RunnerResult where
  steps : List WrappedStep
  debugRunner : Bool
  hasPauseFn : Bool

/-- newRunner: decorate every step per the policy switch, then pick the
runner by the debug flag. -/
def newRunner (policy : String) (debug : Bool) (steps : List Step) : RunnerResult :=
  { steps := wrapSteps policy steps, debugRunner := debug, hasPauseFn := debug }

/-! ## Sample steps and bags used by witnesses and counterexamples -/

/-- A fresh run context: no keys present. -/
def emptyBag : StateBag :=
  { steps_max_retry := none, cancelled := false, halted := false,
    aborted := false, abort_step_logged := false, error := none }

/-- A fresh run context holding a given retry budget. -/
def bagWithBudget (n : Int) : StateBag :=
  { emptyBag with steps_max_retry := some n }

/-- A step that returns Retry on every invocation, leaving the bag unchanged. -/
def alwaysRetryStep : Step :=
  { name := "StepAlwaysRetry",
    run := fun _ s => (StepAction.actionRetry, s),
    cleanup := fun s => s }

/-- A step that returns Retry on its first two invocations, then Continue. -/
def retryTwiceStep : Step :=
  { name := "StepRetryTwice",
    run := fun n s =>
      ((if n < 2 then StepAction.actionRetry else StepAction.actionContinue), s),
    cleanup := fun s => s }

/-- A step that always returns Retry and, on its second invocation, writes a
zero retry budget into the run context. -/
def budgetMutStep : Step :=
  { name := "StepBudgetMut",
    run := fun n s =>
      (StepAction.actionRetry,
        if n = 1 then { s with steps_max_retry := some 0 } else s),
    cleanup := fun s => s }

/-- A step that returns Halt on every invocation. -/
def alwaysHaltStep : Step :=
  { name := "StepAlwaysHalt",
    run := fun _ s => (StepAction.actionHalt, s),
    cleanup := fun s => s }

/-! ## Retry-loop lemmas -/

/-- If the wrapped step leaves the bag unchanged and always answers Retry, the
retry loop uses up its whole budget, emitting one retrying notice per
re-invocation, and exits still holding Retry. -/
theorem retryLoop_const_retry (step : Step)
    (h : ∀ n s, step.run n s = (StepAction.actionRetry, s)) (fuel : Nat) :
    ∀ (idx : Nat) (s : StateBag),
      retryLoop step fuel idx StepAction.actionRetry s =
        (StepAction.actionRetry, s, fuel,
          List.replicate fuel (Notice.retrying step.name)) := by
  induction fuel with
  | zero => intro idx s; rfl
  | succ fuel ih =>
    intro idx s
    simp [retryLoop, h, ih, List.replicate_succ]

/-- Weaker version: if every invocation answers Retry (whatever it does to the
bag), the retry loop uses its whole budget and exits holding Retry. -/
theorem retryLoop_always_retry (step : Step)
    (h : ∀ n s, (step.run n s).1 = StepAction.actionRetry) (fuel : Nat) :
    ∀ (idx : Nat) (s : StateBag), ∃ s2,
      retryLoop step fuel idx StepAction.actionRetry s =
        (StepAction.actionRetry, s2, fuel,
          List.replicate fuel (Notice.retrying step.name)) := by
  induction fuel with
  | zero => intro idx s; exact ⟨s, rfl⟩
  | succ fuel ih =>
    intro idx s
    obtain ⟨s2, ih2⟩ := ih (idx + 1) (step.run idx s).2
    refine ⟨s2, ?_⟩
    simp [retryLoop, h idx s, ih2, List.replicate_succ]

/-- For a bag-preserving step that answers Retry on invocations before `k` and
Continue at `k`, the retry loop entered at index `idx ≤ k` with enough fuel
performs the remaining `k - idx + 1` invocations and exits with Continue. -/
theorem retryLoop_retry_then_continue (step : Step) (k : Nat)
    (h : ∀ n s, step.run n s =
      ((if n < k then StepAction.actionRetry else StepAction.actionContinue), s))
    (fuel : Nat) :
    ∀ (idx : Nat) (s : StateBag), idx ≤ k → k - idx < fuel →
      retryLoop step fuel idx StepAction.actionRetry s =
        (StepAction.actionContinue, s, k - idx + 1,
          List.replicate (k - idx + 1) (Notice.retrying step.name)) := by
  induction fuel with
  | zero => intro idx s _ hf; exact absurd hf (Nat.not_lt_zero _)
  | succ fuel ih =>
    intro idx s hik hf
    by_cases hidx : idx < k
    · have he : k - idx + 1 = (k - (idx + 1) + 1) + 1 := by omega
      have ih2 := ih (idx + 1) s (by omega) (by omega)
      simp [retryLoop, h, hidx, ih2, he, List.replicate_succ]
    · have hk : idx = k := by omega
      simp [retryLoop, h, hk]

/-! ## Claim C2 -/

/-- Claim C2 counterexample: with budget 0 and a step that always answers
Retry, the Ask decorator's Run performs 2 underlying invocations — not
0 + 1 = 1 as the claim states for the Ask variant — when the operator first
answers retry and then cleanup. -/
theorem c2_counterexample :
    (bagWithBudget 0).steps_max_retry = some 0 ∧
    (askStepRun alwaysRetryStep [AskResponse.askRetry, AskResponse.askCleanup] 0
        (bagWithBudget 0)).map (fun r => r.2.2.1) = some 2 ∧
    (2 : Nat) ≠ 0 + 1 := by
  exact ⟨rfl, rfl, by decide⟩

/-- Claim C2 (amended): for budget `N` (read from `steps_max_retry`, absent
meaning 0) and a bag-preserving step that always answers Retry, the Basic and
Abort decorators perform exactly `N + 1` underlying invocations and return
Halt; the Ask decorator does the same whenever the operator's first prompt
answer is a terminal choice (Cleanup or Abort), while each operator Retry
answer restarts the round. -/
theorem c2_retry_exhaustion (step : Step) (s0 : StateBag) (N : Nat)
    (ans : AskResponse) (rest : List AskResponse)
    (h : ∀ n s, step.run n s = (StepAction.actionRetry, s))
    (hb : getMaxRetries s0 = (N : Int))
    (hans : ans ≠ AskResponse.askRetry) :
    ((basicStepRun step s0).1 = StepAction.actionHalt ∧
      (basicStepRun step s0).2.2.1 = N + 1) ∧
    ((abortStepRun step s0).1 = StepAction.actionHalt ∧
      (abortStepRun step s0).2.2.1 = N + 1) ∧
    (∃ s2 ns, askStepRun step (ans :: rest) 0 s0 =
      some (StepAction.actionHalt, s2, N + 1, ns)) := by
  have hfuel : (getMaxRetries s0).toNat = N := by
    rw [hb]; exact Int.toNat_natCast N
  have hloop := retryLoop_const_retry step h
  have hbasic : basicStepRun step s0 =
      (StepAction.actionHalt, s0, N + 1,
        List.replicate N (Notice.retrying step.name)) := by
    simp [basicStepRun, h, hfuel, hloop]
  have hround : askRound step 0 s0 =
      (StepAction.actionHalt, s0, N + 1,
        List.replicate N (Notice.retrying step.name) ++ errNotices s0 ++
          [Notice.stepFailedPrompt step.name]) := by
    simp [askRound, h, hfuel, hloop]
  refine ⟨⟨by rw [hbasic], by rw [hbasic]⟩,
          ⟨by rw [abortStepRun, hbasic], by rw [abortStepRun, hbasic]⟩, ?_⟩
  cases ans with
  | askCleanup =>
    refine ⟨s0, List.replicate N (Notice.retrying step.name) ++
      (errNotices s0 ++ [Notice.stepFailedPrompt step.name]), ?_⟩
    simp [askStepRun, hround]
  | askAbort =>
    refine ⟨{ s0 with aborted := true },
      List.replicate N (Notice.retrying step.name) ++
        (errNotices s0 ++ [Notice.stepFailedPrompt step.name]), ?_⟩
    simp [askStepRun, hround]
  | askRetry => exact absurd rfl hans

/-- Claim C2 witness: budget 2, a step that always answers Retry, operator
answering cleanup: Basic and Abort run it 3 times and halt, Ask likewise. -/
theorem c2_retry_exhaustion_witness :
    ((basicStepRun alwaysRetryStep (bagWithBudget 2)).1 = StepAction.actionHalt ∧
      (basicStepRun alwaysRetryStep (bagWithBudget 2)).2.2.1 = 2 + 1) ∧
    ((abortStepRun alwaysRetryStep (bagWithBudget 2)).1 = StepAction.actionHalt ∧
      (abortStepRun alwaysRetryStep (bagWithBudget 2)).2.2.1 = 2 + 1) ∧
    (∃ s2 ns, askStepRun alwaysRetryStep [AskResponse.askCleanup] 0 (bagWithBudget 2) =
      some (StepAction.actionHalt, s2, 2 + 1, ns)) :=
  c2_retry_exhaustion alwaysRetryStep (bagWithBudget 2) 2
    AskResponse.askCleanup [] (fun _ _ => rfl) (by decide) (by decide)

/-! ## Claim C3 -/

/-- Claim C3: a bag-preserving step that answers Retry exactly `k` times then
Continue, with `k` at most the budget, is invoked `k + 1` times by the Basic
decorator, which returns Continue, each retry preceded by a retrying notice
naming the step. -/
theorem c3_retry_success (step : Step) (s0 : StateBag) (k N : Nat)
    (h : ∀ n s, step.run n s =
      ((if n < k then StepAction.actionRetry else StepAction.actionContinue), s))
    (hb : getMaxRetries s0 = (N : Int)) (hk : k ≤ N) :
    basicStepRun step s0 =
      (StepAction.actionContinue, s0, k + 1,
        List.replicate k (Notice.retrying step.name)) := by
  have hfuel : (getMaxRetries s0).toNat = N := by
    rw [hb]; exact Int.toNat_natCast N
  by_cases hk0 : k = 0
  · subst hk0
    have h0 := h 0 s0
    simp at h0
    simp [basicStepRun, h0]
  · have hpos : 0 < k := Nat.pos_of_ne_zero hk0
    have h0 := h 0 s0
    rw [if_pos hpos] at h0
    have hloop := retryLoop_retry_then_continue step k h N 1 s0 hpos (by omega)
    have hcount : k - 1 + 1 = k := by omega
    rw [hcount] at hloop
    simp [basicStepRun, h0, hfuel, hloop]

/-- Claim C3 witness: a step answering Retry twice then Continue, budget 3:
three invocations, Continue, two retrying notices. -/
theorem c3_retry_success_witness :
    basicStepRun retryTwiceStep (bagWithBudget 3) =
      (StepAction.actionContinue, bagWithBudget 3, 2 + 1,
        List.replicate 2 (Notice.retrying retryTwiceStep.name)) :=
  c3_retry_success retryTwiceStep (bagWithBudget 3) 2 3
    (fun _ _ => rfl) (by decide) (by decide)

/-! ## Claim C4 -/

/-- Modelled from the spec: a Basic decorator whose retry loop re-reads
`steps_max_retry` from the run context at every Retry decision (the source
reads it once, before the loop).  `fuel` bounds the loop, `none` meaning the
bound was hit before the loop settled. -/
def retryLoopFresh (step : Step) : Nat → Nat → Nat → StepAction → StateBag →
    Option (StepAction × StateBag × Nat × List Notice)
  | 0, _, _, _, _ => none
  | fuel + 1, callIdx, retries, action, s =>
    if action = StepAction.actionRetry ∧ (retries : Int) < getMaxRetries s then
      let r := step.run callIdx s
      if r.1 = StepAction.actionContinue then
        some (StepAction.actionContinue, r.2, 1, [Notice.retrying step.name])
      else
        match retryLoopFresh step fuel (callIdx + 1) (retries + 1) r.1 r.2 with
        | none => none
        | some (a, s2, n, ns) =>
          some (a, s2, n + 1, Notice.retrying step.name :: ns)
    else some (action, s, 0, [])

/-- Modelled from the spec: basicStep.Run with the fresh-reading retry loop
of `retryLoopFresh`. -/
def basicStepRunFresh (fuel : Nat) (step : Step) (s0 : StateBag) :
    Option (StepAction × StateBag × Nat × List Notice) :=
  let r := step.run 0 s0
  if r.1 = StepAction.actionContinue then
    some (StepAction.actionContinue, r.2, 1, [])
  else
    match retryLoopFresh step fuel 1 0 r.1 r.2 with
    | none => none
    | some l =>
      if l.1 = StepAction.actionContinue then
        some (StepAction.actionContinue, l.2.1, l.2.2.1 + 1, l.2.2.2)
      else some (StepAction.actionHalt, l.2.1, l.2.2.1 + 1, l.2.2.2)

/-- Claim C4 counterexample: a step that always answers Retry and lowers the
budget to 0 during its second invocation, starting budget 2.  The source
performs 3 invocations (the budget is read once), while the spec's
fresh-reading loop would stop after 2. -/
theorem c4_counterexample :
    (basicStepRun budgetMutStep (bagWithBudget 2)).2.2.1 = 3 ∧
    (basicStepRunFresh 10 budgetMutStep (bagWithBudget 2)).map
      (fun r => r.2.2.1) = some 2 := by
  exact ⟨rfl, rfl⟩

/-- Claim C4 (amended): the budget is read once per decorated Run, from the
bag the first underlying invocation left; changes a step makes to
`steps_max_retry` during retry invocations are not observed by the loop.
Formally: for any step that always answers Retry — whatever it writes to the
bag — the invocation count is `N + 1` where `N` is the budget right after
the first invocation. -/
theorem c4_budget_read_once (step : Step) (s0 : StateBag) (N : Nat)
    (h : ∀ n s, (step.run n s).1 = StepAction.actionRetry)
    (hb : getMaxRetries (step.run 0 s0).2 = (N : Int)) :
    (basicStepRun step s0).1 = StepAction.actionHalt ∧
    (basicStepRun step s0).2.2.1 = N + 1 := by
  have hfuel : (getMaxRetries (step.run 0 s0).2).toNat = N := by
    rw [hb]; exact Int.toNat_natCast N
  obtain ⟨s2, hloop⟩ := retryLoop_always_retry step h N 1 (step.run 0 s0).2
  constructor <;> simp [basicStepRun, h 0 s0, hfuel, hloop]

/-- Claim C4 witness: the budget-mutating step with starting budget 2 is
invoked 2 + 1 = 3 times, despite writing budget 0 during the loop. -/
theorem c4_budget_read_once_witness :
    (basicStepRun budgetMutStep (bagWithBudget 2)).1 = StepAction.actionHalt ∧
    (basicStepRun budgetMutStep (bagWithBudget 2)).2.2.1 = 2 + 1 :=
  c4_budget_read_once budgetMutStep (bagWithBudget 2) 2
    (fun _ _ => rfl) (by decide)

/-! ## Claim C9 -/

/-- Claim C9: a negative `steps_max_retry` behaves exactly like budget 0:
the retry loop never runs, no retrying notice is emitted, and a first
non-Continue result becomes Halt after the single invocation. -/
theorem c9_negative_budget (step : Step) (s0 : StateBag) (z : Int)
    (hb : getMaxRetries (step.run 0 s0).2 = z) (hz : z < 0) :
    basicStepRun step s0 =
      (if (step.run 0 s0).1 = StepAction.actionContinue
       then (StepAction.actionContinue, (step.run 0 s0).2, 1, ([] : List Notice))
       else (StepAction.actionHalt, (step.run 0 s0).2, 1, [])) := by
  have hfuel : (getMaxRetries (step.run 0 s0).2).toNat = 0 := by
    rw [hb]; exact Int.toNat_of_nonpos (le_of_lt hz)
  by_cases hc : (step.run 0 s0).1 = StepAction.actionContinue
  · simp [basicStepRun, hc]
  · simp [basicStepRun, hc, hfuel, retryLoop]

/-- Claim C9 witness: a step that halts at once, budget -3: one invocation,
Halt, no notices. -/
theorem c9_negative_budget_witness :
    basicStepRun alwaysHaltStep (bagWithBudget (-3)) =
      (StepAction.actionHalt, bagWithBudget (-3), 1, []) := by
  have h := c9_negative_budget alwaysHaltStep (bagWithBudget (-3)) (-3)
    (by decide) (by decide)
  simpa using h

/-! ## Claim C5 — the Cleanup Coordinator across a run -/

/-- True exactly for the notice that surfaces the recorded error. -/
def isErrNotice : Notice → Bool
  | Notice.errorNotice _ => true
  | _ => false

/-- True exactly for the two full "aborting" notices. -/
def isAbortingNotice : Notice → Bool
  | Notice.interrupted => true
  | Notice.stepFailed _ => true
  | _ => false

/-- Number of error notices in an output trace. -/
def errCount (ns : List Notice) : Nat := ns.countP isErrNotice

/-- Number of full "aborting" notices in an output trace. -/
def abCount (ns : List Notice) : Nat := ns.countP isAbortingNotice

/-- The run-context flags the rest of the run (steps, executor, signal
handler) may rewrite between two coordinator calls.  `abort_step_logged`
and `aborted` are deliberately absent: no code outside the coordinator
writes `abort_step_logged`. -/
structure EnvFlags where
  error : Option String
  cancelled : Bool
  halted : Bool
deriving DecidableEq

/-- Apply the environment's writes, leaving the coordinator-owned flag and
the `aborted` flag alone. -/
def setEnv (s : StateBag) (e : EnvFlags) : StateBag :=
  { s with error := e.error, cancelled := e.cancelled, halted := e.halted }

/-- A run's worth of coordinator calls: before each call the environment may
rewrite `error` / `cancelled` / `halted`, then `handleAbortsAndInterupts`
runs for the given step name.  Returns the final bag and the concatenated
notice trace. -/
def coordCalls : StateBag → List (EnvFlags × String) → StateBag × List Notice
  | s, [] => (s, [])
  | s, (e, name) :: rest =>
    let r := handleAbortsAndInterupts (setEnv s e) name
    let t := coordCalls r.2.1 rest
    (t.1, r.2.2 ++ t.2)

/-- Once `abort_step_logged` is set, a coordinator call leaves the bag
unchanged and emits exactly a terse skip notice when cancelled or halted is
set, and nothing otherwise. -/
theorem handleAborts_logged (s : StateBag) (name : String)
    (h : s.abort_step_logged = true) :
    handleAbortsAndInterupts s name =
      ((if s.cancelled || s.halted then false else true), s,
       (if s.cancelled || s.halted then [Notice.skipCleanup name] else [])) := by
  cases he : s.error <;> cases hc : s.cancelled <;> cases hh : s.halted <;>
    simp [handleAbortsAndInterupts, h, he, hc, hh]

/-- With `abort_step_logged` unset, a coordinator call emits at most one
error notice and at most one aborting notice, and either sets the flag or
emits nothing and leaves the bag unchanged. -/
theorem handleAborts_unlogged (s : StateBag) (name : String)
    (h : s.abort_step_logged = false) :
    errCount (handleAbortsAndInterupts s name).2.2 ≤ 1 ∧
    abCount (handleAbortsAndInterupts s name).2.2 ≤ 1 ∧
    ((handleAbortsAndInterupts s name).2.1.abort_step_logged = true ∨
      (errCount (handleAbortsAndInterupts s name).2.2 = 0 ∧
       abCount (handleAbortsAndInterupts s name).2.2 = 0 ∧
       (handleAbortsAndInterupts s name).2.1 = s)) := by
  cases he : s.error <;> cases hc : s.cancelled <;> cases hh : s.halted <;>
    simp [handleAbortsAndInterupts, errCount, abCount, isErrNotice,
      isAbortingNotice, h, he, hc, hh]

/-- Once the flag is set it stays set across any remaining coordinator
calls, and those calls emit no further error or aborting notices. -/
theorem coordCalls_logged (calls : List (EnvFlags × String)) :
    ∀ (s : StateBag), s.abort_step_logged = true →
      (coordCalls s calls).1.abort_step_logged = true ∧
      errCount (coordCalls s calls).2 = 0 ∧
      abCount (coordCalls s calls).2 = 0 := by
  induction calls with
  | nil => intro s h; simpa [coordCalls, errCount, abCount] using h
  | cons p rest ih =>
    obtain ⟨e, name⟩ := p
    intro s h
    have hf : (setEnv s e).abort_step_logged = true := by simp [setEnv, h]
    have hr := handleAborts_logged (setEnv s e) name hf
    have hstate : (handleAbortsAndInterupts (setEnv s e) name).2.1 = setEnv s e := by
      rw [hr]
    obtain ⟨ih2a, ih2b, ih2c⟩ := ih (setEnv s e) hf
    refine ⟨?_, ?_, ?_⟩
    · simpa only [coordCalls, hstate] using ih2a
    · simp only [coordCalls, errCount, List.countP_append, hstate] at ih2b ⊢
      rw [ih2b, hr]
      by_cases hc : ((setEnv s e).cancelled || (setEnv s e).halted) = true <;>
        simp [hc, isErrNotice]
    · simp only [coordCalls, abCount, List.countP_append, hstate] at ih2c ⊢
      rw [ih2c, hr]
      by_cases hc : ((setEnv s e).cancelled || (setEnv s e).halted) = true <;>
        simp [hc, isAbortingNotice]

/-- Starting with the flag unset, a whole run of coordinator calls emits at
most one error notice and at most one aborting notice. -/
theorem coordCalls_unlogged (calls : List (EnvFlags × String)) :
    ∀ (s : StateBag), s.abort_step_logged = false →
      errCount (coordCalls s calls).2 ≤ 1 ∧
      abCount (coordCalls s calls).2 ≤ 1 := by
  induction calls with
  | nil => intro s _; simp [coordCalls, errCount, abCount]
  | cons p rest ih =>
    obtain ⟨e, name⟩ := p
    intro s h
    have hf : (setEnv s e).abort_step_logged = false := by simp [setEnv, h]
    obtain ⟨h1, h2, h3⟩ := handleAborts_unlogged (setEnv s e) name hf
    rcases h3 with hset | ⟨hz1, hz2, hsame⟩
    · obtain ⟨_, hr1, hr2⟩ :=
        coordCalls_logged rest (handleAbortsAndInterupts (setEnv s e) name).2.1 hset
      simp only [coordCalls, errCount, abCount, List.countP_append] at h1 h2 hr1 hr2 ⊢
      omega
    · obtain ⟨ih2a, ih2b⟩ := ih (handleAbortsAndInterupts (setEnv s e) name).2.1
        (by rw [hsame]; exact hf)
      simp only [coordCalls, errCount, abCount, List.countP_append] at hz1 hz2 ih2a ih2b ⊢
      omega

/-- Claim C5: across a run, (i) starting with `abort_step_logged` unset, the
error notice and the full aborting notice are each emitted at most once over
any sequence of coordinator calls with the environment rewriting the other
flags arbitrarily; (ii) once set, the flag is never cleared by any further
calls; (iii) a call made with the flag set while cancelled or halted is set
emits only the terse per-step skip notice and returns false, leaving the bag
unchanged. -/
theorem c5_coordinator_dedup (s t : StateBag) (calls : List (EnvFlags × String))
    (e : EnvFlags) (name : String)
    (hs : s.abort_step_logged = false) (ht : t.abort_step_logged = true)
    (he : e.cancelled = true ∨ e.halted = true) :
    errCount (coordCalls s calls).2 ≤ 1 ∧
    abCount (coordCalls s calls).2 ≤ 1 ∧
    (coordCalls t calls).1.abort_step_logged = true ∧
    handleAbortsAndInterupts (setEnv t e) name =
      (false, setEnv t e, [Notice.skipCleanup name]) := by
  obtain ⟨a, b⟩ := coordCalls_unlogged calls s hs
  obtain ⟨c, _, _⟩ := coordCalls_logged calls t ht
  have hf : (setEnv t e).abort_step_logged = true := by simp [setEnv, ht]
  have hr := handleAborts_logged (setEnv t e) name hf
  have hcond : ((setEnv t e).cancelled || (setEnv t e).halted) = true := by
    rcases he with h | h <;> simp [setEnv, h]
  rw [hr, hcond]
  exact ⟨a, b, c, by simp⟩

/-- Claim C5 witness: a fresh run whose two cleanup calls both see an error
and the halted flag; one flagged bag; one further call under cancellation. -/
theorem c5_coordinator_dedup_witness :
    errCount (coordCalls emptyBag
      [(⟨some "disk full", false, true⟩, "StepB"),
       (⟨some "disk full", false, true⟩, "StepA")]).2 ≤ 1 ∧
    abCount (coordCalls emptyBag
      [(⟨some "disk full", false, true⟩, "StepB"),
       (⟨some "disk full", false, true⟩, "StepA")]).2 ≤ 1 ∧
    (coordCalls { emptyBag with abort_step_logged := true }
      [(⟨some "disk full", false, true⟩, "StepB"),
       (⟨some "disk full", false, true⟩, "StepA")]).1.abort_step_logged = true ∧
    handleAbortsAndInterupts
      (setEnv { emptyBag with abort_step_logged := true } ⟨none, true, false⟩)
      "StepA" =
      (false, setEnv { emptyBag with abort_step_logged := true } ⟨none, true, false⟩,
        [Notice.skipCleanup "StepA"]) :=
  c5_coordinator_dedup emptyBag { emptyBag with abort_step_logged := true }
    [(⟨some "disk full", false, true⟩, "StepB"),
     (⟨some "disk full", false, true⟩, "StepA")]
    ⟨none, true, false⟩ "StepA" rfl rfl (Or.inl rfl)

/-! ## Claim C6 — the Ask decorator's Abort path and Cleanup gating -/

/-- A round of askStep.Run ends in Continue or Halt, never Retry. -/
theorem askRound_continue_or_halt (step : Step) (idx : Nat) (s : StateBag) :
    (askRound step idx s).1 = StepAction.actionContinue ∨
    (askRound step idx s).1 = StepAction.actionHalt := by
  simp only [askRound]
  split_ifs <;> simp

/-- The step used by the C6 witness: always fails with Retry. -/
def c6Step : Step :=
  { name := "StepC6",
    run := fun _ s => (StepAction.actionRetry, s),
    cleanup := fun s => { s with error := some "cleaned" } }

/-- Claim C6: under the Ask policy, (i) when a round fails and the operator
answers Abort, the decorated Run puts `aborted` into the bag and returns
Halt; (ii) Cleanup with `aborted` unset delegates unconditionally to the
wrapped Cleanup, even when cancelled or halted is set; (iii) Cleanup with
`aborted` set defers to the Cleanup Coordinator exactly as the Abort policy
does. -/
theorem c6_ask_abort_and_cleanup (step : Step) (s : StateBag) (idx : Nat)
    (rest : List AskResponse) (t u : StateBag)
    (hq : (askRound step idx s).1 ≠ StepAction.actionContinue)
    (ht : t.aborted = false) (hu : u.aborted = true) :
    (∃ s2 n ns, askStepRun step (AskResponse.askAbort :: rest) idx s =
        some (StepAction.actionHalt, s2, n, ns) ∧ s2.aborted = true) ∧
    askStepCleanup step t = (true, step.cleanup t, []) ∧
    askStepCleanup step u =
      (if (handleAbortsAndInterupts u step.name).1
       then (true, step.cleanup (handleAbortsAndInterupts u step.name).2.1,
             (handleAbortsAndInterupts u step.name).2.2)
       else (false, (handleAbortsAndInterupts u step.name).2.1,
             (handleAbortsAndInterupts u step.name).2.2)) := by
  have hhalt : (askRound step idx s).1 = StepAction.actionHalt := by
    rcases askRound_continue_or_halt step idx s with h | h
    · exact absurd h hq
    · exact h
  refine ⟨?_, ?_, ?_⟩
  · refine ⟨{ (askRound step idx s).2.1 with aborted := true },
      (askRound step idx s).2.2.1, (askRound step idx s).2.2.2, ?_, by simp⟩
    conv_lhs => rw [askStepRun]
    simp [hq, hhalt]
  · simp [askStepCleanup, ht]
  · simp only [askStepCleanup, hu, if_true]

/-- Claim C6 witness: a step that always fails with budget 0; one bag with
`aborted` unset but cancelled and halted set; one bag with `aborted` set. -/
theorem c6_ask_abort_and_cleanup_witness :
    (∃ s2 n ns, askStepRun c6Step [AskResponse.askAbort] 0 (bagWithBudget 0) =
        some (StepAction.actionHalt, s2, n, ns) ∧ s2.aborted = true) ∧
    askStepCleanup c6Step { emptyBag with cancelled := true, halted := true } =
      (true, c6Step.cleanup { emptyBag with cancelled := true, halted := true }, []) ∧
    askStepCleanup c6Step { emptyBag with aborted := true } =
      (if (handleAbortsAndInterupts { emptyBag with aborted := true } c6Step.name).1
       then (true, c6Step.cleanup
              (handleAbortsAndInterupts { emptyBag with aborted := true } c6Step.name).2.1,
             (handleAbortsAndInterupts { emptyBag with aborted := true } c6Step.name).2.2)
       else (false,
             (handleAbortsAndInterupts { emptyBag with aborted := true } c6Step.name).2.1,
             (handleAbortsAndInterupts { emptyBag with aborted := true } c6Step.name).2.2)) :=
  c6_ask_abort_and_cleanup c6Step (bagWithBudget 0) 0 []
    { emptyBag with cancelled := true, halted := true }
    { emptyBag with aborted := true }
    (by decide) rfl rfl

/-! ## Claim C8 — prompt input parsing -/

/-- Claim C8: the prompt outcome is decided by the case-insensitive first
character of the input line, the empty line counting as 'c': c yields
Cleanup, a yields Abort, r yields Retry, and any other first character
emits an incorrect-input notice and re-prompts on the remaining lines
instead of defaulting. -/
theorem c8_prompt_first_char (line : List Char) (err : Option String)
    (rest : List AskLine) :
    askPrompt ({ line := line, err := err } :: rest) =
      (if (line.headD 'c').toLower = 'c'
       then some (AskResponse.askCleanup, askErrNotices err)
       else if (line.headD 'c').toLower = 'a'
       then some (AskResponse.askAbort, askErrNotices err)
       else if (line.headD 'c').toLower = 'r'
       then some (AskResponse.askRetry, askErrNotices err)
       else (askPrompt rest).map
         (fun p => (p.1, askErrNotices err ++ (Notice.incorrectInput line :: p.2)))) := by
  have hhead : (line.map Char.toLower ++ ['c']).headD 'c' = (line.headD 'c').toLower := by
    cases line with
    | nil => decide
    | cons c cs => simp
  conv_lhs => rw [askPrompt]
  simp only [hhead]
  split_ifs <;>
    first
      | rfl
      | (cases h : askPrompt rest with
          | none => simp [h]
          | some p => obtain ⟨r, ns⟩ := p; simp [h])

/-! ## Claim C10 — ui.Ask errors do not abort the prompt loop -/

/-- Claim C10: when ui.Ask reports an error, askPrompt logs it and still
parses the accompanying line by its first character — the outcome and loop
behaviour are those of the same line without an error, with the log notice
prepended — and in particular an error with an empty line yields Cleanup. -/
theorem c10_ask_error_still_parses (line : List Char) (e : String)
    (rest : List AskLine) :
    askPrompt ({ line := line, err := some e } :: rest) =
      (askPrompt ({ line := line, err := none } :: rest)).map
        (fun p => (p.1, Notice.askInputError e :: p.2)) ∧
    askPrompt ({ line := [], err := some e } :: rest) =
      some (AskResponse.askCleanup, [Notice.askInputError e]) := by
  constructor
  · conv_lhs => rw [askPrompt]
    conv_rhs => rw [askPrompt]
    simp only [askErrNotices]
    split_ifs <;>
      first
        | rfl
        | (cases h : askPrompt rest with
            | none => simp [h]
            | some p => obtain ⟨r, ns⟩ := p; simp [h])
  · rw [askPrompt]
    rfl

/-! ## Claim C1 — the runner factory's policy switch -/

/-- The step used by the C1 counterexample and witness. -/
def c1Step : Step :=
  { name := "StepC1",
    run := fun _ s => (StepAction.actionRetry, s),
    cleanup := fun s => s }

/-- Claim C1 counterexample: with the unrecognized policy string "bogus",
newRunner does not behave as with "": the step list is left undecorated
rather than wrapped in the Basic decorator. -/
theorem c1_counterexample :
    newRunner "bogus" false [c1Step] ≠ newRunner "" false [c1Step] := by
  intro h
  have h2 := congrArg RunnerResult.steps h
  simp [newRunner, wrapSteps] at h2

/-- Claim C1 (amended): for every policy-selector string outside
{"", "cleanup", "abort", "ask"}, newRunner leaves every step undecorated
(it does not wrap them in the Basic decorator as "" does) and still
produces a runner without crashing, with debug handling unchanged. -/
theorem c1_unknown_policy_raw (policy : String) (debug : Bool) (steps : List Step)
    (h1 : policy ≠ "") (h2 : policy ≠ "cleanup")
    (h3 : policy ≠ "abort") (h4 : policy ≠ "ask") :
    newRunner policy debug steps =
      { steps := steps.map WrappedStep.raw, debugRunner := debug,
        hasPauseFn := debug } := by
  simp [newRunner, wrapSteps, h1, h2, h3, h4]

/-- Claim C1 witness: the policy string "bogus" leaves a singleton step list
undecorated. -/
theorem c1_unknown_policy_raw_witness :
    newRunner "bogus" false [c1Step] =
      { steps := List.map WrappedStep.raw [c1Step], debugRunner := false,
        hasPauseFn := false } :=
  c1_unknown_policy_raw "bogus" false [c1Step]
    (by decide) (by decide) (by decide) (by decide)

end Packer
